import Mathlib

/-!
Verification development for the OPT-based sequential recommender
(models/seqrec_opt.py): a shallow embedding of the optimizer construction
(OPTSeqRec._freeze_plm_layers, OPTSeqRec._set_opt_lr,
OPTSeqRec.configure_optimizers), of the prompt-conditioned forward
(OPTPromptSeqRec.__init__, OPTPromptSeqRec._get_opt_output), of the plain
forward (OPTSeqRec._get_opt_output), and of the pre-inference variant
(PreInferOPTSeqRec._get_opt_output, PreInferOPTSeqRec._feature_extract),
together with theorems settling the frozen claims about them.

Numbers that the source handles as Python floats are embedded as rationals;
machine tensors are embedded as nested lists.  The pretrained backbone
(PartialOPTModel), the prompt encoders (PromptEncoder, DeepPromptEncoder)
and the pooling helpers (mean_pooling, last_pooling) are code of the
repository that is not under src/: they enter either as opaque function
parameters of the embedded forward, or as hypotheses modelled from the
spec where a claim needs a fact about them.
-/

/-- Error raised eagerly for invalid configurations.  The source realises
this as ValueError (OPTSeqRec._freeze_plm_layers) and AssertionError
(OPTPromptSeqRec.__init__); the spec names the whole class
ConfigurationError. -/
inductive ConfigurationError where
  | configurationError (msg : String)
deriving DecidableEq

/-- Error raised during a forward pass.  The source realises
unboundLocal as Python's UnboundLocalError: a branch reads a local
variable that no branch assigned. -/
inductive RunError where
  | unboundLocal (varName : String)
deriving DecidableEq

/-- One entry of torch's named_parameters(): the parameter object identity
(pid stands for the Python object), its dotted name, and its
requires_grad flag. -/
structure NamedParam where
  pid : Nat
  name : String
  requiresGrad : Bool
deriving DecidableEq

/-- The parameters of the PartialOPTModel held in self.opt, grouped by
module: decoder.embed_* parameters, the per-decoder-layer parameters
(decoder.layers.i...), and the remaining parameters (for example
decoder.final_layer_norm).  numHiddenLayers is opt.config.num_hidden_layers,
the backbone's true layer count. -/
structure OptModel where
  numHiddenLayers : Nat
  embedParams : List NamedParam
  layerParams : List (List NamedParam)
  otherParams : List NamedParam
deriving DecidableEq

/-- The flat list opt.named_parameters() of the backbone, with module-local
(unprefixed) names. -/
def optNamedParams (m : OptModel) : List NamedParam :=
  m.embedParams ++ m.layerParams.flatten ++ m.otherParams

/-- Sets requires_grad of one parameter. -/
def setGradParam (b : Bool) (p : NamedParam) : NamedParam :=
  { p with requiresGrad := b }

/-- Sets requires_grad of every parameter of the backbone: the two
full-model loops of OPTSeqRec._freeze_plm_layers. -/
def setGradAll (b : Bool) (m : OptModel) : OptModel :=
  { m with
    embedParams := m.embedParams.map (setGradParam b)
    layerParams := m.layerParams.map (List.map (setGradParam b))
    otherParams := m.otherParams.map (setGradParam b) }

/-- Embeds OPTSeqRec._freeze_plm_layers (src/models/seqrec_opt.py lines
31-47).  Out-of-range counts raise ValueError; -1 makes everything
trainable; otherwise everything is frozen and, for n greater than 0, the
last n entries of self.opt.decoder.layers (Python slice layers[-n:]) are
then unfrozen. -/
def freezePlmLayers (m : OptModel) (lastNUnfreeze : Int) :
    Except ConfigurationError OptModel :=
  let plmNLayers := m.numHiddenLayers
  if lastNUnfreeze < -1 ∨ (plmNLayers : Int) < lastNUnfreeze then
    .error (.configurationError "last_n_unfreeze is not supported")
  else
    let m1 := if lastNUnfreeze = -1 then setGradAll true m else setGradAll false m
    if 0 < lastNUnfreeze then
      let keep := m1.layerParams.length - lastNUnfreeze.toNat
      .ok { m1 with
            layerParams :=
              m1.layerParams.take keep ++
                (m1.layerParams.drop keep).map (List.map (setGradParam true)) }
    else
      .ok m1

/-- Embeds the list comprehension of OPTSeqRec._set_opt_lr line 116:
lrs = [lr * (layer_decay ** (n_layers - i)) for i in range(n_layers)]. -/
def lrList (lr layerDecay : ℚ) (nLayers : Nat) : List ℚ :=
  (List.range nLayers).map (fun i => lr * layerDecay ^ (nLayers - i))

/-- Layer index parsed from a parameter name, as int(name.split(".")[2]) in
OPTSeqRec._set_opt_lr line 121.  The source would raise on a malformed
name; names produced by the model are always of the form
decoder.layers.i.suffix, so the default 0 is never reached there. -/
def layerIdxOfName (name : String) : Nat :=
  (((name.splitOn ".").getD 2 "").toNat?).getD 0

/-- The no-weight-decay test of OPTSeqRec._set_opt_lr line 127:
any(nd in name for nd in no_weight_decay) with
no_weight_decay = ["bias", "LayerNorm.weight"].  A substring occurs in a
name exactly when splitting on it yields at least two parts. -/
def noWeightDecayName (name : String) : Bool :=
  2 ≤ (name.splitOn "bias").length ∨ 2 ≤ (name.splitOn "LayerNorm.weight").length

/-- One element of the tuning_params list built by OPTSeqRec._set_opt_lr:
the dict holding the parameter, its learning rate, its weight decay and
its (module-local) name. -/
structure TuningEntry where
  param : NamedParam
  lr : ℚ
  weight_decay : ℚ
  name : String
deriving DecidableEq

/-- The dict built for one named parameter in the loop of
OPTSeqRec._set_opt_lr lines 119-131. -/
def mkTuningEntry (lrs : List ℚ) (wd : ℚ) (p : NamedParam) : TuningEntry :=
  let plr :=
    if p.name.startsWith "decoder.layers" then lrs.getD (layerIdxOfName p.name) 0
    else if p.name.startsWith "decoder.embed_" then lrs.getD 0 0
    else lrs.getLastD 0
  let pwd := if noWeightDecayName p.name then 0 else wd
  ⟨p, plr, pwd, p.name⟩

/-- Embeds OPTSeqRec._set_opt_lr (src/models/seqrec_opt.py lines 113-136):
builds one dict per backbone named parameter, then keeps only the entries
whose parameter requires grad. -/
def setOptLr (m : OptModel) (lr layerDecay weightDecay : ℚ) : List TuningEntry :=
  let lrs := lrList lr layerDecay m.numHiddenLayers
  ((optNamedParams m).map (mkTuningEntry lrs weightDecay)).filter
    (fun e => e.param.requiresGrad)

/-- One parameter group handed to torch.optim.AdamW. -/
structure ParamGroup where
  params : List NamedParam
  lr : ℚ
  weight_decay : ℚ
  name : String
deriving DecidableEq

/-- The full model: the backbone plus every other module's parameters
(projection, sasrec, classification head).  self.named_parameters() lists
the backbone's parameters under names prefixed with "opt." followed by the
rest. -/
structure SeqRecModel where
  opt : OptModel
  restParams : List NamedParam
deriving DecidableEq

/-- self.named_parameters() of the full model. -/
def modelNamedParams (M : SeqRecModel) : List NamedParam :=
  (optNamedParams M.opt).map (fun p => { p with name := "opt." ++ p.name }) ++
    M.restParams

/-- The hyperparameters read by OPTSeqRec.configure_optimizers. -/
structure OptimHp where
  lr : ℚ
  weight_decay : ℚ
  plm_last_n_unfreeze : Int
  plm_lr : ℚ
  plm_lr_layer_decay : ℚ
  plm_weight_decay : ℚ
deriving DecidableEq

/-- The optimizer group made from one tuning dict: its params key holds
the single parameter. -/
def entryToGroup (e : TuningEntry) : ParamGroup :=
  ⟨[e.param], e.lr, e.weight_decay, e.name⟩

/-- Embeds OPTSeqRec.configure_optimizers (src/models/seqrec_opt.py lines
138-166), returning the parameter groups handed to AdamW.  With
plm_last_n_unfreeze equal to 0 a single group holds self.parameters();
otherwise the per-parameter backbone groups from _set_opt_lr come first
and every parameter whose prefixed name is not among the tuning names is
appended to one group named the_rest. -/
def configureOptimizers (M : SeqRecModel) (hp : OptimHp) : List ParamGroup :=
  if hp.plm_last_n_unfreeze = 0 then
    [⟨modelNamedParams M, hp.lr, hp.weight_decay, "all"⟩]
  else
    let optTuningParams := setOptLr M.opt hp.plm_lr hp.plm_lr_layer_decay hp.plm_weight_decay
    let optTuningNames := optTuningParams.map (fun e => "opt." ++ e.name)
    let theRestParams :=
      (modelNamedParams M).filter (fun p => ! optTuningNames.contains p.name)
    optTuningParams.map entryToGroup ++
      [⟨theRestParams, hp.lr, hp.weight_decay, "the_rest"⟩]

/-- The exception-aware view of configure_optimizers: source lines 113-166
contain no raise statement at all, so the embedded builder always
succeeds. -/
def configureOptimizersE (M : SeqRecModel) (hp : OptimHp) :
    Except ConfigurationError (List ParamGroup) :=
  .ok (configureOptimizers M hp)

/-- Number of optimizer groups whose parameter list holds the parameter
with the given identity. -/
def countGroupsContaining (gs : List ParamGroup) (x : Nat) : Nat :=
  (gs.filter (fun g => g.params.any (fun q => q.pid == x))).length

theorem lrList_length (lr layerDecay : ℚ) (n : Nat) :
    (lrList lr layerDecay n).length = n := by
  simp [lrList]

theorem lrList_getD (lr layerDecay : ℚ) (n i : Nat) (hi : i < n) :
    (lrList lr layerDecay n).getD i 0 = lr * layerDecay ^ (n - i) := by
  simp [lrList, List.getD, List.getElem?_map, List.getElem?_range hi]

lemma requiresGrad_of_mem_layer_setGradAll (b : Bool) (m : OptModel)
    {lp : List NamedParam} {p : NamedParam}
    (hlp : lp ∈ (setGradAll b m).layerParams) (hp : p ∈ lp) :
    p.requiresGrad = b := by
  simp only [setGradAll, List.mem_map] at hlp
  obtain ⟨l0, _, rfl⟩ := hlp
  simp only [List.mem_map] at hp
  obtain ⟨q, _, rfl⟩ := hp
  rfl

lemma requiresGrad_of_mem_setGradAll (b : Bool) (m : OptModel) (p : NamedParam)
    (hp : p ∈ optNamedParams (setGradAll b m)) : p.requiresGrad = b := by
  simp only [optNamedParams, List.mem_append] at hp
  rcases hp with (h | h) | h
  · simp only [setGradAll, List.mem_map] at h
    obtain ⟨q, _, rfl⟩ := h
    rfl
  · rw [List.mem_flatten] at h
    obtain ⟨lp, hlp, hplp⟩ := h
    exact requiresGrad_of_mem_layer_setGradAll b m hlp hplp
  · simp only [setGradAll, List.mem_map] at h
    obtain ⟨q, _, rfl⟩ := h
    rfl

/-- Parameters with all requires_grad flags equal to b. -/
def allGradIs (m : OptModel) (b : Bool) : Prop :=
  ∀ p ∈ optNamedParams m, p.requiresGrad = b

/-- Claim C3 (corrected amendment): for every layer_decay the produced
rates satisfy lr_i = base_lr * layer_decay ^ (L - i); for nonnegative
base_lr and 0 < layer_decay at most 1, the sequence is non-increasing
toward the input; and the deepest layer i = L - 1 receives
base_lr * layer_decay (equal to base_lr only when layer_decay is 1), not
base_lr itself. -/
theorem lrList_decay_amended (lr layerDecay : ℚ) (n : Nat) :
    (∀ i, i < n → (lrList lr layerDecay n).getD i 0 = lr * layerDecay ^ (n - i)) ∧
    (0 ≤ lr → 0 < layerDecay → layerDecay ≤ 1 →
      ∀ i, i + 1 < n →
        (lrList lr layerDecay n).getD i 0 ≤ (lrList lr layerDecay n).getD (i + 1) 0) ∧
    (0 < n → (lrList lr layerDecay n).getD (n - 1) 0 = lr * layerDecay) := by
  refine ⟨fun i hi => lrList_getD lr layerDecay n i hi, ?_, ?_⟩
  · intro hlr hd0 hd1 i hi
    rw [lrList_getD lr layerDecay n i (by omega),
        lrList_getD lr layerDecay n (i + 1) hi]
    exact mul_le_mul_of_nonneg_left
      (pow_le_pow_of_le_one hd0.le hd1 (by omega)) hlr
  · intro hn
    rw [lrList_getD lr layerDecay n (n - 1) (by omega)]
    have h1 : n - (n - 1) = 1 := by omega
    rw [h1, pow_one]

/-- Claim C3 (counterexample): with two layers, base_lr 1 and layer_decay
2 the produced rates are [4, 2]: the deepest layer receives 2, not
base_lr 1, and the sequence is not non-increasing toward the input. -/
theorem lrList_claim_counterexample :
    lrList 1 2 2 = [4, 2] ∧
    ¬ (lrList 1 2 2).getD 1 0 = 1 ∧
    ¬ ((lrList 1 2 2).getD 0 0 ≤ (lrList 1 2 2).getD 1 0) := by
  have h : lrList 1 2 2 = [4, 2] := by
    simp only [lrList, List.range_succ, List.range_zero, List.nil_append,
      List.map_append, List.map_cons, List.map_nil, List.cons_append]
    norm_num
  refine ⟨h, by rw [h]; norm_num, by rw [h]; norm_num⟩

/-- Witness for the amended C3 theorem at base_lr 1, layer_decay one half
and three layers. -/
theorem lrList_decay_amended_witness :
    (lrList 1 (1 / 2) 3).getD 0 0 = 1 * (1 / 2 : ℚ) ^ 3 ∧
    (lrList 1 (1 / 2) 3).getD 0 0 ≤ (lrList 1 (1 / 2) 3).getD 1 0 ∧
    (lrList 1 (1 / 2) 3).getD 2 0 = 1 * (1 / 2 : ℚ) :=
  ⟨(lrList_decay_amended 1 (1 / 2) 3).1 0 (by decide),
   (lrList_decay_amended 1 (1 / 2) 3).2.1 (by norm_num) (by norm_num) (by norm_num)
     0 (by decide),
   (lrList_decay_amended 1 (1 / 2) 3).2.2 (by decide)⟩

/-- Claim C6 (confirmed): _freeze_plm_layers accepts unfreeze counts in
[-1, total_layers]: -1 makes every backbone parameter trainable, 0
freezes every backbone parameter, 0 < n at most total_layers leaves
exactly the parameters of the last n kept layers trainable with all other
backbone parameters frozen, and any count outside the range fails with
the configuration error (a ValueError in the source, which the spec's
taxonomy names ConfigurationError). -/
theorem freeze_plm_layers_range (m : OptModel) (lastNUnfreeze : Int)
    (hL : m.layerParams.length = m.numHiddenLayers) :
    ((lastNUnfreeze < -1 ∨ (m.numHiddenLayers : Int) < lastNUnfreeze) →
      freezePlmLayers m lastNUnfreeze =
        .error (.configurationError "last_n_unfreeze is not supported")) ∧
    (lastNUnfreeze = -1 →
      ∃ m2, freezePlmLayers m lastNUnfreeze = .ok m2 ∧ allGradIs m2 true) ∧
    (lastNUnfreeze = 0 →
      ∃ m2, freezePlmLayers m lastNUnfreeze = .ok m2 ∧ allGradIs m2 false) ∧
    (∀ k : Nat, lastNUnfreeze = (k : Int) → 0 < k → k ≤ m.numHiddenLayers →
      ∃ m2, freezePlmLayers m lastNUnfreeze = .ok m2 ∧
        m2.layerParams.length = m.numHiddenLayers ∧
        (∀ p ∈ m2.embedParams, p.requiresGrad = false) ∧
        (∀ p ∈ m2.otherParams, p.requiresGrad = false) ∧
        (∀ lp ∈ m2.layerParams.take (m.numHiddenLayers - k),
          ∀ p ∈ lp, p.requiresGrad = false) ∧
        (∀ lp ∈ m2.layerParams.drop (m.numHiddenLayers - k),
          ∀ p ∈ lp, p.requiresGrad = true)) := by
  refine ⟨?_, ?_, ?_, ?_⟩
  · intro h
    simp only [freezePlmLayers, if_pos h]
  · rintro rfl
    have hc : ¬((-1 : Int) < -1 ∨ (m.numHiddenLayers : Int) < -1) := by omega
    refine ⟨setGradAll true m, ?_, ?_⟩
    · simp only [freezePlmLayers, if_neg hc, if_pos rfl]
      norm_num
    · exact fun p hp => requiresGrad_of_mem_setGradAll true m p hp
  · rintro rfl
    have hc : ¬((0 : Int) < -1 ∨ (m.numHiddenLayers : Int) < 0) := by omega
    refine ⟨setGradAll false m, ?_, ?_⟩
    · simp only [freezePlmLayers, if_neg hc]
      norm_num
    · exact fun p hp => requiresGrad_of_mem_setGradAll false m p hp
  · rintro k rfl hk hkL
    have hc : ¬(((k : Nat) : Int) < -1 ∨ (m.numHiddenLayers : Int) < ((k : Nat) : Int)) := by
      omega
    have hne : ¬(((k : Nat) : Int) = -1) := by omega
    have hpos : (0 : Int) < ((k : Nat) : Int) := by omega
    have hlen : (setGradAll false m).layerParams.length = m.numHiddenLayers := by
      simp [setGradAll, hL]
    have htn : ((k : Nat) : Int).toNat = k := Int.toNat_natCast k
    have hkeep : (setGradAll false m).layerParams.length - ((k : Nat) : Int).toNat =
        m.numHiddenLayers - k := by rw [hlen, htn]
    refine ⟨{ setGradAll false m with
              layerParams :=
                (setGradAll false m).layerParams.take (m.numHiddenLayers - k) ++
                  ((setGradAll false m).layerParams.drop (m.numHiddenLayers - k)).map
                    (List.map (setGradParam true)) }, ?_, ?_, ?_, ?_, ?_, ?_⟩
    · simp only [freezePlmLayers, if_neg hc, if_neg hne, if_pos hpos, hkeep]
    · simp only [List.length_append, List.length_take, List.length_drop,
        List.length_map, hlen]
      omega
    · intro p hp
      simp only [setGradAll, List.mem_map] at hp
      obtain ⟨q, _, rfl⟩ := hp
      rfl
    · intro p hp
      simp only [setGradAll, List.mem_map] at hp
      obtain ⟨q, _, rfl⟩ := hp
      rfl
    · intro lp hlp p hp
      have htake : ((setGradAll false m).layerParams.take (m.numHiddenLayers - k) ++
          ((setGradAll false m).layerParams.drop (m.numHiddenLayers - k)).map
            (List.map (setGradParam true))).take (m.numHiddenLayers - k) =
          (setGradAll false m).layerParams.take (m.numHiddenLayers - k) := by
        rw [List.take_append_of_le_length, List.take_take, min_self]
        rw [List.length_take]
        omega
      rw [htake] at hlp
      exact requiresGrad_of_mem_layer_setGradAll false m (List.mem_of_mem_take hlp) hp
    · intro lp hlp p hp
      have hlt : ((setGradAll false m).layerParams.take (m.numHiddenLayers - k)).length =
          m.numHiddenLayers - k := by
        rw [List.length_take, hlen]
        omega
      have hdrop : ((setGradAll false m).layerParams.take (m.numHiddenLayers - k) ++
          ((setGradAll false m).layerParams.drop (m.numHiddenLayers - k)).map
            (List.map (setGradParam true))).drop (m.numHiddenLayers - k) =
          ((setGradAll false m).layerParams.drop (m.numHiddenLayers - k)).map
            (List.map (setGradParam true)) :=
        List.drop_left' hlt
      rw [hdrop] at hlp
      simp only [List.mem_map] at hlp
      obtain ⟨l0, _, rfl⟩ := hlp
      simp only [List.mem_map] at hp
      obtain ⟨q, _, rfl⟩ := hp
      rfl

lemma countGroupsContaining_append (a b : List ParamGroup) (x : Nat) :
    countGroupsContaining (a ++ b) x =
      countGroupsContaining a x + countGroupsContaining b x := by
  simp [countGroupsContaining, List.filter_append]

lemma countGroupsContaining_entries (l : List TuningEntry) (x : Nat) :
    countGroupsContaining (l.map entryToGroup) x =
      (l.filter (fun e => e.param.pid == x)).length := by
  induction l with
  | nil => rfl
  | cons e t ih =>
      simp only [List.map_cons, countGroupsContaining, List.filter_cons,
        entryToGroup, List.any_cons, List.any_nil, Bool.or_false] at ih ⊢
      cases h : (e.param.pid == x) <;> simp [h, ih]

lemma filter_pid_singleton_of_nodup (l : List NamedParam)
    (hl : (l.map NamedParam.pid).Nodup) (q : NamedParam) (hq : q ∈ l) :
    l.filter (fun p => p.pid == q.pid) = [q] := by
  induction l with
  | nil => cases hq
  | cons a t ih =>
      rw [List.map_cons, List.nodup_cons] at hl
      rcases List.mem_cons.mp hq with rfl | hqt
      · rw [List.filter_cons_of_pos (by simp)]
        have ht : t.filter (fun p => p.pid == q.pid) = [] := by
          refine List.filter_eq_nil_iff.mpr fun p hp => ?_
          simp only [beq_iff_eq]
          intro hpe
          exact hl.1 (hpe ▸ List.mem_map_of_mem NamedParam.pid hp)
        rw [ht]
      · have hne : (a.pid == q.pid) = false := by
          simp only [beq_eq_false_iff_ne, ne_eq]
          intro hae
          exact hl.1 (hae ▸ List.mem_map_of_mem NamedParam.pid hqt)
        rw [List.filter_cons_of_neg (by simp [hne]), ih hl.2 hqt]

lemma filter_pid_nil_of_not_mem (l : List NamedParam) (x : Nat)
    (hx : x ∉ l.map NamedParam.pid) :
    l.filter (fun p => p.pid == x) = [] := by
  refine List.filter_eq_nil_iff.mpr fun p hp => ?_
  simp only [beq_iff_eq]
  intro hpe
  exact hx (hpe ▸ List.mem_map_of_mem NamedParam.pid hp)

lemma optNamePrefixInj {a b : String} (h : ("opt." ++ a) = ("opt." ++ b)) :
    a = b := by
  have h2 := congrArg String.data h
  simp only [String.data_append] at h2
  exact String.ext (List.append_cancel_left h2)

/-- setOptLr written as a map over the trainable backbone parameters. -/
lemma setOptLr_eq_map_filter (m : OptModel) (lr layerDecay weightDecay : ℚ) :
    setOptLr m lr layerDecay weightDecay =
      ((optNamedParams m).filter (fun p => p.requiresGrad)).map
        (mkTuningEntry (lrList lr layerDecay m.numHiddenLayers) weightDecay) := by
  unfold setOptLr
  rw [List.filter_map]
  rfl

lemma param_mkTuningEntry (lrs : List ℚ) (wd : ℚ) (p : NamedParam) :
    (mkTuningEntry lrs wd p).param = p := rfl

lemma name_mkTuningEntry (lrs : List ℚ) (wd : ℚ) (p : NamedParam) :
    (mkTuningEntry lrs wd p).name = p.name := rfl

lemma countGroupsContaining_singleton (g : ParamGroup) (x : Nat) :
    countGroupsContaining [g] x =
      if g.params.any (fun q => q.pid == x) then 1 else 0 := by
  simp only [countGroupsContaining, List.filter]
  cases h : g.params.any (fun q => q.pid == x) <;> simp [h]

/-- Claim C2 (corrected amendment): with plm_last_n_unfreeze nonzero every
parameter of the model, trainable or frozen, appears in exactly one
optimizer group: each trainable backbone parameter in its own tuning
group, and every other parameter, including every frozen backbone
parameter, in the single group named the_rest.  Frozen parameters are
therefore not dropped: each one is swept into the_rest. -/
theorem configure_optimizers_groups_amended (M : SeqRecModel) (hp : OptimHp)
    (hu : hp.plm_last_n_unfreeze ≠ 0)
    (hnames : ((modelNamedParams M).map NamedParam.name).Nodup)
    (hpids : ((modelNamedParams M).map NamedParam.pid).Nodup) :
    ∀ p ∈ modelNamedParams M,
      countGroupsContaining (configureOptimizers M hp) p.pid = 1 ∧
      (p.requiresGrad = false →
        ∃ g ∈ configureOptimizers M hp, g.name = "the_rest" ∧ p ∈ g.params) := by
  intro p hpm
  classical
  set l := optNamedParams M.opt with hldef
  set F : NamedParam → NamedParam :=
    fun q => { q with name := "opt." ++ q.name } with hFdef
  set tun := setOptLr M.opt hp.plm_lr hp.plm_lr_layer_decay hp.plm_weight_decay
    with htundef
  set tnames := tun.map (fun e => "opt." ++ e.name) with htnamesdef
  set restList := (modelNamedParams M).filter (fun r => ! tnames.contains r.name)
    with hrestdef
  set restG : ParamGroup := ⟨restList, hp.lr, hp.weight_decay, "the_rest"⟩
    with hrestGdef
  have hco : configureOptimizers M hp = tun.map entryToGroup ++ [restG] := by
    simp only [configureOptimizers, if_neg hu]
  have hmodel : modelNamedParams M = l.map F ++ M.restParams := rfl
  have hpids2 : (l.map NamedParam.pid ++ M.restParams.map NamedParam.pid).Nodup := by
    have : (modelNamedParams M).map NamedParam.pid =
        l.map NamedParam.pid ++ M.restParams.map NamedParam.pid := by
      rw [hmodel, List.map_append, List.map_map]
      rfl
    rw [this] at hpids
    exact hpids
  have hnames2 : (l.map (fun q => "opt." ++ q.name) ++
      M.restParams.map NamedParam.name).Nodup := by
    have : (modelNamedParams M).map NamedParam.name =
        l.map (fun q => "opt." ++ q.name) ++ M.restParams.map NamedParam.name := by
      rw [hmodel, List.map_append, List.map_map]
      rfl
    rw [this] at hnames
    exact hnames
  have hnodup_l_pid : (l.map NamedParam.pid).Nodup :=
    (List.nodup_append.mp hpids2).1
  have hdisj_pid : (l.map NamedParam.pid).Disjoint (M.restParams.map NamedParam.pid) :=
    (List.nodup_append.mp hpids2).2.2
  have hnodup_l_name : (l.map (fun q => "opt." ++ q.name)).Nodup :=
    (List.nodup_append.mp hnames2).1
  have hdisj_name : (l.map (fun q => "opt." ++ q.name)).Disjoint
      (M.restParams.map NamedParam.name) :=
    (List.nodup_append.mp hnames2).2.2
  have hinjPid : ∀ x ∈ modelNamedParams M, ∀ y ∈ modelNamedParams M,
      x.pid = y.pid → x = y := List.inj_on_of_nodup_map hpids
  have htun_count : ∀ x : Nat, countGroupsContaining (tun.map entryToGroup) x =
      (((l.filter (fun q => q.pid == x)).filter
        (fun q => q.requiresGrad))).length := by
    intro x
    rw [countGroupsContaining_entries, htundef, setOptLr_eq_map_filter, hldef,
      List.filter_map, List.length_map]
    congr 1
    rw [List.filter_filter, List.filter_filter]
    congr 1
    funext a
    simp [Function.comp, param_mkTuningEntry, Bool.and_comm]
  have htnames_eq : tnames =
      (l.filter (fun q => q.requiresGrad)).map (fun q => "opt." ++ q.name) := by
    rw [htnamesdef, htundef, setOptLr_eq_map_filter, List.map_map, hldef]
    rfl
  have hcontains : ∀ s : String, tnames.contains s = true ↔
      ∃ q ∈ l, q.requiresGrad = true ∧ "opt." ++ q.name = s := by
    intro s
    rw [show (tnames.contains s) = tnames.elem s from rfl, List.elem_iff,
      htnames_eq]
    constructor
    · intro h
      obtain ⟨q, hq, hqs⟩ := List.mem_map.mp h
      exact ⟨q, (List.mem_filter.mp hq).1, (List.mem_filter.mp hq).2, hqs⟩
    · rintro ⟨q, hq, hgrad, rfl⟩
      exact List.mem_map_of_mem _ (List.mem_filter.mpr ⟨hq, hgrad⟩)
  have hmemRest : ∀ r, r ∈ restList ↔
      r ∈ modelNamedParams M ∧ tnames.contains r.name = false := by
    intro r
    rw [hrestdef, List.mem_filter]
    simp
  have hrest_any : ∀ x ∈ modelNamedParams M,
      (restList.any (fun q => q.pid == x.pid)) = true ↔ x ∈ restList := by
    intro x hx
    constructor
    · intro h
      obtain ⟨r, hr, hrx⟩ := List.any_eq_true.mp h
      have hrm : r ∈ modelNamedParams M := ((hmemRest r).mp hr).1
      have : r = x := hinjPid r hrm x hx (by simpa using hrx)
      exact this ▸ hr
    · intro h
      exact List.any_eq_true.mpr ⟨x, h, by simp⟩
  rw [hco, countGroupsContaining_append, htun_count,
    countGroupsContaining_singleton]
  rcases List.mem_append.mp (hmodel ▸ hpm) with hA | hB
  · obtain ⟨q, hq, rfl⟩ := List.mem_map.mp hA
    have hFpid : (F q).pid = q.pid := rfl
    have hFgrad : (F q).requiresGrad = q.requiresGrad := rfl
    have hFname : (F q).name = "opt." ++ q.name := rfl
    have hfq : l.filter (fun r => r.pid == (F q).pid) = [q] := by
      rw [hFpid]
      exact filter_pid_singleton_of_nodup l hnodup_l_pid q hq
    have hinRest : F q ∈ restList ↔ q.requiresGrad = false := by
      rw [hmemRest (F q)]
      constructor
      · rintro ⟨-, hcf⟩
        by_contra hg
        have hg' : q.requiresGrad = true := by
          cases hgr : q.requiresGrad
          · exact absurd hgr hg
          · rfl
        have : tnames.contains (F q).name = true := by
          rw [hFname]
          exact (hcontains _).mpr ⟨q, hq, hg', rfl⟩
        rw [this] at hcf
        cases hcf
      · intro hg
        refine ⟨hmodel ▸ List.mem_append.mpr (Or.inl hA), ?_⟩
        by_contra hcf
        have hct : tnames.contains (F q).name = true := by
          cases hc : tnames.contains (F q).name
          · exact absurd hc hcf
          · rfl
        rw [hFname] at hct
        obtain ⟨q2, hq2, hg2, hq2n⟩ := (hcontains _).mp hct
        have hqn : q2.name = q.name := optNamePrefixInj hq2n
        have : q2 = q :=
          List.inj_on_of_nodup_map hnodup_l_name hq2 hq (by rw [hqn])
        rw [this] at hg2
        rw [hg2] at hg
        cases hg
    rw [hfq]
    cases hgr : q.requiresGrad
    · have hmem : F q ∈ restList := hinRest.mpr hgr
      have hany : (restList.any (fun r => r.pid == (F q).pid)) = true :=
        (hrest_any (F q) (hmodel ▸ List.mem_append.mpr (Or.inl hA))).mpr hmem
      refine ⟨?_, ?_⟩
      · simp [hgr, hany]
      · intro _
        exact ⟨restG, List.mem_append.mpr (Or.inr (by simp)), rfl, hmem⟩
    · have hnmem : F q ∉ restList := by
        intro hmem
        have := hinRest.mp hmem
        rw [hgr] at this
        cases this
      have hany : (restList.any (fun r => r.pid == (F q).pid)) = false := by
        cases hc : restList.any (fun r => r.pid == (F q).pid)
        · rfl
        · exact absurd ((hrest_any (F q)
            (hmodel ▸ List.mem_append.mpr (Or.inl hA))).mp hc) hnmem
      refine ⟨?_, ?_⟩
      · simp [hgr, hany]
      · intro hcontra
        exact Bool.noConfusion hcontra
  · have hpm' : p ∈ modelNamedParams M := hmodel ▸ List.mem_append.mpr (Or.inr hB)
    have hnil : l.filter (fun r => r.pid == p.pid) = [] := by
      refine filter_pid_nil_of_not_mem l p.pid fun hmem => ?_
      exact hdisj_pid hmem (List.mem_map_of_mem NamedParam.pid hB)
    have hcf : tnames.contains p.name = false := by
      cases hc : tnames.contains p.name
      · rfl
      · obtain ⟨q2, hq2, hg2, hq2n⟩ := (hcontains _).mp hc
        exact absurd (List.mem_map_of_mem NamedParam.name hB)
          (fun hmem => hdisj_name
            (hq2n ▸ List.mem_map_of_mem (fun q => "opt." ++ q.name) hq2) hmem)
    have hmem : p ∈ restList := (hmemRest p).mpr ⟨hpm', hcf⟩
    have hany : (restList.any (fun r => r.pid == p.pid)) = true :=
      (hrest_any p hpm').mpr hmem
    rw [hnil]
    refine ⟨by simp [hany], fun _ =>
      ⟨restG, List.mem_append.mpr (Or.inr (by simp)), rfl, hmem⟩⟩

/-- A small backbone family: one weight parameter per decoder layer, all
trainable before freezing. -/
def exampleLayerParams (n : Nat) : List (List NamedParam) :=
  (List.range n).map
    (fun i => [⟨i, "decoder.layers." ++ toString i ++ ".weight", true⟩])

/-- A backbone shaped like a 12-layer OPT decoder. -/
def exampleOptModel12 : OptModel :=
  ⟨12, [⟨100, "decoder.embed_tokens.weight", true⟩], exampleLayerParams 12,
   [⟨101, "decoder.final_layer_norm.weight", true⟩]⟩

/-- The 12-layer backbone after _freeze_plm_layers(2): only the last two
layers stay trainable. -/
def exampleFrozenOpt12 : OptModel :=
  ((freezePlmLayers exampleOptModel12 2).toOption).getD exampleOptModel12

/-- A full model around the frozen 12-layer backbone with one non-backbone
parameter. -/
def exampleSeqRecModel : SeqRecModel :=
  ⟨exampleFrozenOpt12, [⟨200, "projection.0.weight", true⟩]⟩

/-- Hyperparameters with plm_last_n_unfreeze 2 and layer decay 4/5. -/
def exampleHp : OptimHp := ⟨1 / 1000, 1 / 100, 2, 1 / 100000, 4 / 5, 0⟩

/-- Claim C2 (counterexample): with plm_last_n_unfreeze 2 on the 12-layer
backbone, the frozen parameter of decoder layer 0 appears in an optimizer
group (the group named the_rest), refuting that frozen parameters appear
in no group and that no group holds parameters of the ten frozen
layers. -/
theorem configure_optimizers_claim_counterexample :
    ∃ g ∈ configureOptimizers exampleSeqRecModel exampleHp,
      g.name = "the_rest" ∧
        ∃ q ∈ g.params,
          q.name = "opt.decoder.layers.0.weight" ∧ q.requiresGrad = false := by
  decide

/-- Witness for the amended C2 theorem: the frozen layer-0 parameter of
the 12-layer example sits in exactly one group, and that group is
the_rest. -/
theorem configure_optimizers_groups_amended_witness :
    countGroupsContaining (configureOptimizers exampleSeqRecModel exampleHp)
      (⟨0, "opt.decoder.layers.0.weight", false⟩ : NamedParam).pid = 1 ∧
    ((⟨0, "opt.decoder.layers.0.weight", false⟩ : NamedParam).requiresGrad = false →
      ∃ g ∈ configureOptimizers exampleSeqRecModel exampleHp,
        g.name = "the_rest" ∧
          (⟨0, "opt.decoder.layers.0.weight", false⟩ : NamedParam) ∈ g.params) :=
  configure_optimizers_groups_amended exampleSeqRecModel exampleHp (by decide)
    (by decide) (by decide) ⟨0, "opt.decoder.layers.0.weight", false⟩ (by decide)

/-- A backbone shaped like a 3-layer decoder, for the freezing witness. -/
def exampleOptModel3 : OptModel :=
  ⟨3, [⟨100, "decoder.embed_tokens.weight", true⟩], exampleLayerParams 3,
   [⟨101, "decoder.final_layer_norm.weight", true⟩]⟩

/-- Witness for the C6 theorem: freezing the 3-layer example with count 2
succeeds, freezes the embedding, the other parameters and the first
layer, and unfreezes the last two layers. -/
theorem freeze_plm_layers_range_witness :
    ∃ m2, freezePlmLayers exampleOptModel3 2 = .ok m2 ∧
      m2.layerParams.length = exampleOptModel3.numHiddenLayers ∧
      (∀ p ∈ m2.embedParams, p.requiresGrad = false) ∧
      (∀ p ∈ m2.otherParams, p.requiresGrad = false) ∧
      (∀ lp ∈ m2.layerParams.take (exampleOptModel3.numHiddenLayers - 2),
        ∀ p ∈ lp, p.requiresGrad = false) ∧
      (∀ lp ∈ m2.layerParams.drop (exampleOptModel3.numHiddenLayers - 2),
        ∀ p ∈ lp, p.requiresGrad = true) :=
  (freeze_plm_layers_range exampleOptModel3 2 (by decide)).2.2.2 2 (by decide)
    (by decide) (by decide)

/-- Claim C7 (corrected amendment): the optimizer builder performs no
validation at all: it succeeds for every layer_decay and every learning
rate, non-positive and negative values included, and in the layered
branch the group named the_rest carries the given rest learning rate and
weight decay unchanged. -/
theorem configure_optimizers_no_validation (M : SeqRecModel) (hp : OptimHp)
    (hu : hp.plm_last_n_unfreeze ≠ 0) :
    (configureOptimizersE M hp).isOk = true ∧
    ∃ g ∈ configureOptimizers M hp,
      g.name = "the_rest" ∧ g.lr = hp.lr ∧ g.weight_decay = hp.weight_decay := by
  refine ⟨rfl, ?_⟩
  have hco : configureOptimizers M hp =
      (setOptLr M.opt hp.plm_lr hp.plm_lr_layer_decay hp.plm_weight_decay).map
          entryToGroup ++
        [⟨(modelNamedParams M).filter
            (fun p => ! ((setOptLr M.opt hp.plm_lr hp.plm_lr_layer_decay
              hp.plm_weight_decay).map (fun e => "opt." ++ e.name)).contains p.name),
          hp.lr, hp.weight_decay, "the_rest"⟩] := by
    simp only [configureOptimizers, if_neg hu]
  rw [hco]
  exact ⟨_, List.mem_append_right _ (List.mem_singleton.mpr rfl), rfl, rfl, rfl⟩

/-- Hyperparameters with layer decay 0 (non-positive) in the layered
branch. -/
def exampleHpBadDecay : OptimHp := ⟨1 / 1000, 1 / 100, 2, 1 / 100000, 0, 0⟩

/-- Claim C7 (counterexample): with layer_decay 0, a non-positive value,
the builder does not fail: it succeeds and produces the groups. -/
theorem configure_optimizers_validation_counterexample :
    exampleHpBadDecay.plm_lr_layer_decay ≤ 0 ∧
    (configureOptimizersE exampleSeqRecModel exampleHpBadDecay).isOk = true :=
  ⟨le_refl _, rfl⟩

/-- Witness for the amended C7 theorem at the example model and the
layer-decay-0 hyperparameters. -/
theorem configure_optimizers_no_validation_witness :
    (configureOptimizersE exampleSeqRecModel exampleHpBadDecay).isOk = true ∧
    ∃ g ∈ configureOptimizers exampleSeqRecModel exampleHpBadDecay,
      g.name = "the_rest" ∧ g.lr = exampleHpBadDecay.lr ∧
        g.weight_decay = exampleHpBadDecay.weight_decay :=
  configure_optimizers_no_validation exampleSeqRecModel exampleHpBadDecay
    (by decide)

/-- Input to one backbone forward call: token ids (input_ids=...) or
precomputed embeddings (inputs_embeds=...). -/
inductive OptInput (α : Type) where
  | ids (tokens : List (List Nat))
  | embeds (embs : List (List α))
deriving DecidableEq

/-- Per-layer attention cache entry: the key and value tensors along the
cached-sequence axis.  One list element stands for the (batch, heads,
head_dim) slab of one cached position, so concatenation along dim 2 is
list append and the cache length is the list length. -/
structure LayerKV (α : Type) where
  keys : List α
  values : List α
deriving DecidableEq

/-- One forward call into the backbone: the input, the attention mask (a
batch of 0-1 rows) and the optional prior cache. -/
structure OptCall (α : Type) where
  input : OptInput α
  attention_mask : List (List Nat)
  past_key_values : Option (List (LayerKV α))
deriving DecidableEq

/-- Result of one backbone forward call: hidden states (a batch of rows
of per-position hidden slabs) and the updated cache. -/
structure OptOut (α : Type) where
  last_hidden_state : List (List α)
  past_key_values : List (LayerKV α)
deriving DecidableEq

/-- torch.ones(batch_size, n) as a 0-1 mask. -/
def onesMask (batchSize n : Nat) : List (List Nat) :=
  List.replicate batchSize (List.replicate n 1)

/-- torch.cat((a, b), dim=1) on batched masks. -/
def catMaskDim1 (a b : List (List Nat)) : List (List Nat) :=
  List.zipWith (fun r s => r ++ s) a b

/-- The layer-wise cache splice of OPTPromptSeqRec._get_opt_output lines
263-271: zip the step-1 cache with the postfix prompt cache and
concatenate keys and values along the sequence axis. -/
def spliceCache {α : Type} (past prompt : List (LayerKV α)) : List (LayerKV α) :=
  List.zipWith (fun pkv ppv => ⟨pkv.keys ++ ppv.keys, pkv.values ++ ppv.values⟩)
    past prompt

/-- The uniform sequence length of a cache, read off its first layer. -/
def cacheLen {α : Type} (c : List (LayerKV α)) : Nat :=
  ((c.head?).map (fun kv => kv.keys.length)).getD 0

/-- Number of new sequence positions carried by a backbone input. -/
def inputLenOf {α : Type} : OptInput α → Nat
  | .ids t => ((t.head?).getD []).length
  | .embeds e => ((e.head?).getD []).length

/-- Length of the prior cache of a call, 0 when absent. -/
def pastLenOf {α : Type} (call : OptCall α) : Nat :=
  match call.past_key_values with
  | none => 0
  | some pkv => cacheLen pkv

/-- The configuration fields of OPTPromptSeqRecConfig read by
OPTPromptSeqRec.__init__ and _get_opt_output. -/
structure PromptConfig where
  pre_seq_len : Nat
  post_seq_len : Nat
  last_query_len : Nat
  pooling_method : String
deriving DecidableEq

/-- Which submodules OPTPromptSeqRec.__init__ constructs. -/
structure PromptModules where
  hasPrefixEncoder : Bool
  hasPostfixEncoder : Bool
  hasLastQueryEncoder : Bool
  hasFusionMlp : Bool
deriving DecidableEq

/-- Embeds OPTPromptSeqRec.__init__ (src/models/seqrec_opt.py lines
196-235): the only raise in the constructor is the assertion that
last_query_len is at least 1, inside the post_seq_len block; no check at
all ties pooling_method to last_query_len. -/
def promptInit (c : PromptConfig) : Except ConfigurationError PromptModules :=
  if 0 < c.post_seq_len ∧ c.last_query_len < 1 then
    .error (.configurationError "last_query_len must be at least 1")
  else
    .ok ⟨decide (0 < c.pre_seq_len), decide (0 < c.post_seq_len),
         decide (0 < c.last_query_len), decide (c.pooling_method = "mean_last")⟩

/-- The callable pieces of OPTPromptSeqRec that live outside src/: the
backbone self.opt (PartialOPTModel), the three prompt encoders
(models/layers.py) and the pooling helpers (models/utils.py), plus the
fusion MLP.  The forward is embedded as a function of these parts. -/
structure PromptParts (α : Type) where
  opt : OptCall α → OptOut α
  prefix_encoder : Nat → List (LayerKV α)
  postfix_encoder : Nat → List (LayerKV α)
  last_query_encoder : Nat → List (List α)
  mean_pooling : List (List α) → List (List Nat) → List α
  last_pooling : List (List α) → List (List Nat) → List α
  fusion_mlp : List α → List α → List α

/-- The first backbone call of OPTPromptSeqRec._get_opt_output (src lines
243-257): with a prefix segment the prefix cache is passed as
past_key_values and the mask is the prefix all-ones concatenated with the
real-token mask; otherwise the call carries the real tokens and mask
alone. -/
def promptStep1Call {α : Type} (M : PromptParts α) (c : PromptConfig)
    (input_ids attention_mask : List (List Nat)) : OptCall α :=
  let plm_batch_size := input_ids.length
  if 0 < c.pre_seq_len then
    ⟨.ids input_ids,
     catMaskDim1 (onesMask plm_batch_size c.pre_seq_len) attention_mask,
     some (M.prefix_encoder plm_batch_size)⟩
  else
    ⟨.ids input_ids, attention_mask, none⟩

/-- The second backbone call of OPTPromptSeqRec._get_opt_output (src lines
260-284), made when a last-query segment is configured: the step-1 cache
(spliced with the postfix cache when post_seq_len is positive), the
step-1 mask extended by post_seq_len + last_query_len ones, and the
last-query embeddings as inputs_embeds.  The step-1 prompt_attention_mask
equals the step-1 call's mask in both of its branches. -/
def promptStep2Call {α : Type} (M : PromptParts α) (c : PromptConfig)
    (input_ids attention_mask : List (List Nat)) : Option (OptCall α) :=
  let plm_batch_size := input_ids.length
  if 0 < c.last_query_len then
    let step1_pkv :=
      (M.opt (promptStep1Call M c input_ids attention_mask)).past_key_values
    let past_key_values :=
      if 0 < c.post_seq_len then
        spliceCache step1_pkv (M.postfix_encoder plm_batch_size)
      else step1_pkv
    some ⟨.embeds (M.last_query_encoder plm_batch_size),
          catMaskDim1 (promptStep1Call M c input_ids attention_mask).attention_mask
            (onesMask plm_batch_size (c.post_seq_len + c.last_query_len)),
          some past_key_values⟩
  else none

/-- The slicing last_token_embs.last_hidden_state[:, -1, :]. -/
def lastColumn {α : Type} [Inhabited α] (h : List (List α)) : List α :=
  h.map (fun row => (row.getLast?).getD default)

/-- Embeds OPTPromptSeqRec._get_opt_output (src/models/seqrec_opt.py lines
237-298).  Returns the pooled item embeddings together with the list of
backbone calls made, in order, so that theorems can speak about the masks
and caches each pass received.  When pooling_method is last or mean_last
but no second pass ran, the source reads the never-assigned local
last_token_embs and dies with UnboundLocalError; an unknown
pooling_method leaves item_embs unassigned likewise. -/
def promptGetOptOutput {α : Type} [Inhabited α] (M : PromptParts α)
    (c : PromptConfig) (input_ids attention_mask : List (List Nat)) :
    Except RunError (List α) × List (OptCall α) :=
  let call1 := promptStep1Call M c input_ids attention_mask
  let output := M.opt call1
  let call2 := promptStep2Call M c input_ids attention_mask
  let last_token_embs := call2.map M.opt
  let sentence_embs := output.last_hidden_state
  let item_embs : Except RunError (List α) :=
    if c.pooling_method = "mean" then
      .ok (M.mean_pooling sentence_embs attention_mask)
    else if c.pooling_method = "last" then
      match last_token_embs with
      | some o => .ok (lastColumn o.last_hidden_state)
      | none => .error (.unboundLocal "last_token_embs")
    else if c.pooling_method = "mean_last" then
      match last_token_embs with
      | some o =>
          .ok (M.fusion_mlp (M.mean_pooling sentence_embs attention_mask)
            (lastColumn o.last_hidden_state))
      | none => .error (.unboundLocal "last_token_embs")
    else .error (.unboundLocal "item_embs")
  (item_embs, call1 :: call2.toList)

/-- Embeds OPTSeqRec._get_opt_output (src/models/seqrec_opt.py lines
96-111): one backbone call with the real tokens and mask (wrapped in
torch.no_grad when the backbone is fully frozen, which does not change
the produced value), then mean or last pooling over the real-token mask;
any other pooling_method leaves item_embs unassigned. -/
def plainGetOptOutput {α : Type} (M : PromptParts α) (plmLastNUnfreeze : Int)
    (pooling_method : String) (input_ids attention_mask : List (List Nat)) :
    Except RunError (List α) :=
  let output :=
    if plmLastNUnfreeze = 0 then M.opt ⟨.ids input_ids, attention_mask, none⟩
    else M.opt ⟨.ids input_ids, attention_mask, none⟩
  let sentence_embs := output.last_hidden_state
  if pooling_method = "mean" then
    .ok (M.mean_pooling sentence_embs attention_mask)
  else if pooling_method = "last" then
    .ok (M.last_pooling sentence_embs attention_mask)
  else .error (.unboundLocal "item_embs")

/-- Modelled from the spec: the backbone capability of PartialOPTModel
(models/partial_opt.py, not under src/).  A forward call returns a cache
with one entry per kept layer whose key and value lengths along the
sequence axis equal the prior cache length plus the number of new input
positions (spec sections 3 and 4.1). -/
def BackboneCacheLenSpec {α : Type} (opt : OptCall α → OptOut α) : Prop :=
  ∀ call : OptCall α, ∀ kv ∈ (opt call).past_key_values,
    kv.keys.length = pastLenOf call + inputLenOf call.input ∧
    kv.values.length = pastLenOf call + inputLenOf call.input

/-- Claim C1 (confirmed): with a prefix segment and a last-query segment
configured, the forward makes exactly two backbone calls: the first
receives the mask pre_seq_len all-ones concatenated with the real-token
mask, the second receives that mask further extended by
post_seq_len + last_query_len ones, and every layer of the step-1 cache
spans pre_seq_len plus the token length.  The cache facts rest on the
spec-modelled backbone and prefix-encoder length laws, taken as
hypotheses. -/
theorem prompt_forward_masks (α : Type) [Inhabited α] (M : PromptParts α)
    (c : PromptConfig) (input_ids attention_mask : List (List Nat))
    (hpre : 0 < c.pre_seq_len) (hlq : 0 < c.last_query_len)
    (hopt : BackboneCacheLenSpec M.opt)
    (henc : cacheLen (M.prefix_encoder input_ids.length) = c.pre_seq_len) :
    ∃ call1 call2,
      (promptGetOptOutput M c input_ids attention_mask).2 = [call1, call2] ∧
      call1.attention_mask =
        catMaskDim1 (onesMask input_ids.length c.pre_seq_len) attention_mask ∧
      call2.attention_mask =
        catMaskDim1 call1.attention_mask
          (onesMask input_ids.length (c.post_seq_len + c.last_query_len)) ∧
      (∀ kv ∈ (M.opt call1).past_key_values,
        kv.keys.length =
          c.pre_seq_len + ((input_ids.head?).getD []).length) := by
  have h2 : promptStep2Call M c input_ids attention_mask =
      some ⟨.embeds (M.last_query_encoder input_ids.length),
        catMaskDim1 (promptStep1Call M c input_ids attention_mask).attention_mask
          (onesMask input_ids.length (c.post_seq_len + c.last_query_len)),
        some (if 0 < c.post_seq_len then
          spliceCache
            (M.opt (promptStep1Call M c input_ids attention_mask)).past_key_values
            (M.postfix_encoder input_ids.length)
        else
          (M.opt (promptStep1Call M c input_ids attention_mask)).past_key_values)⟩ := by
    simp only [promptStep2Call, if_pos hlq]
  refine ⟨promptStep1Call M c input_ids attention_mask,
    ⟨.embeds (M.last_query_encoder input_ids.length),
     catMaskDim1 (promptStep1Call M c input_ids attention_mask).attention_mask
       (onesMask input_ids.length (c.post_seq_len + c.last_query_len)),
     some (if 0 < c.post_seq_len then
       spliceCache
         (M.opt (promptStep1Call M c input_ids attention_mask)).past_key_values
         (M.postfix_encoder input_ids.length)
     else
       (M.opt (promptStep1Call M c input_ids attention_mask)).past_key_values)⟩,
    ?_, ?_, ?_, ?_⟩
  · show (promptGetOptOutput M c input_ids attention_mask).2 = _
    simp only [promptGetOptOutput, h2, Option.toList_some]
  · simp only [promptStep1Call, if_pos hpre]
  · rfl
  · intro kv hkv
    have h := (hopt (promptStep1Call M c input_ids attention_mask) kv hkv).1
    rw [h]
    simp only [promptStep1Call, if_pos hpre, pastLenOf, inputLenOf, henc]

/-- A 4-layer toy backbone over the unit hidden type, obeying the
spec-modelled cache-length law: every output cache entry spans the prior
cache plus the new input positions. -/
def toyOpt : OptCall Unit → OptOut Unit := fun call =>
  ⟨List.replicate call.attention_mask.length [()],
   List.replicate 4
     ⟨List.replicate (pastLenOf call + inputLenOf call.input) (),
      List.replicate (pastLenOf call + inputLenOf call.input) ()⟩⟩

/-- Toy parts around toyOpt: a length-2 prefix cache per layer, an empty
postfix cache, a one-position last query, and trivial pooling. -/
def toyParts : PromptParts Unit :=
  ⟨toyOpt,
   fun _ => List.replicate 4 ⟨List.replicate 2 (), List.replicate 2 ()⟩,
   fun _ => List.replicate 4 ⟨[], []⟩,
   fun b => List.replicate b [()],
   fun h _ => h.map (fun _ => ()),
   fun h _ => h.map (fun _ => ()),
   fun a _ => a⟩

/-- Batch of 3 token rows of length 5. -/
def toyIds : List (List Nat) := List.replicate 3 (List.replicate 5 7)

/-- The matching all-ones real-token mask. -/
def toyMask : List (List Nat) := List.replicate 3 (List.replicate 5 1)

lemma toyOpt_cache_spec : BackboneCacheLenSpec toyOpt := by
  intro call kv hkv
  have h := List.eq_of_mem_replicate hkv
  subst h
  exact ⟨by simp, by simp⟩

/-- Witness for the C1 theorem at the spec's end-to-end scenario:
pre_seq_len 2, post_seq_len 0, last_query_len 1, batch 3, token length 5;
the step-1 cache spans 2 + 5 = 7 positions and the step-2 mask is the
step-1 mask extended by one more column. -/
theorem prompt_forward_masks_witness :
    ∃ call1 call2,
      (promptGetOptOutput toyParts ⟨2, 0, 1, "last"⟩ toyIds toyMask).2 =
        [call1, call2] ∧
      call1.attention_mask = catMaskDim1 (onesMask toyIds.length 2) toyMask ∧
      call2.attention_mask =
        catMaskDim1 call1.attention_mask (onesMask toyIds.length (0 + 1)) ∧
      (∀ kv ∈ (toyParts.opt call1).past_key_values,
        kv.keys.length = 2 + ((toyIds.head?).getD []).length) :=
  prompt_forward_masks Unit toyParts ⟨2, 0, 1, "last"⟩ toyIds toyMask
    (by decide) (by decide) toyOpt_cache_spec (by decide)

/-- Claim C5 (confirmed): with all three prompt lengths 0 and mean
pooling, the prompt-conditioned forward returns exactly the plain model's
mean-pooling output for the same backbone parts and inputs, for any
plm_last_n_unfreeze. -/
theorem prompt_forward_reduces_to_plain (α : Type) [Inhabited α]
    (M : PromptParts α) (c : PromptConfig) (plmLastNUnfreeze : Int)
    (input_ids attention_mask : List (List Nat))
    (hpre : c.pre_seq_len = 0) (_hpost : c.post_seq_len = 0)
    (hlq : c.last_query_len = 0) (hpool : c.pooling_method = "mean") :
    (promptGetOptOutput M c input_ids attention_mask).1 =
      plainGetOptOutput M plmLastNUnfreeze "mean" input_ids attention_mask := by
  simp [promptGetOptOutput, plainGetOptOutput, promptStep1Call, promptStep2Call,
    hpre, hlq, hpool]

/-- Witness for the C5 theorem at the toy parts with the fully frozen
backbone setting. -/
theorem prompt_forward_reduces_to_plain_witness :
    (promptGetOptOutput toyParts ⟨0, 0, 0, "mean"⟩ toyIds toyMask).1 =
      plainGetOptOutput toyParts 0 "mean" toyIds toyMask :=
  prompt_forward_reduces_to_plain Unit toyParts ⟨0, 0, 0, "mean"⟩ 0 toyIds toyMask
    rfl rfl rfl rfl

/-- Claim C10 (confirmed): with mean pooling the returned item embeddings
depend only on the inputs, the backbone, the prefix encoder and the mean
pooling helper: two sets of parts agreeing on those but differing
arbitrarily in the postfix encoder and the last-query encoder produce
identical pooled outputs. -/
theorem prompt_forward_mean_ignores_postfix (α : Type) [Inhabited α]
    (M1 M2 : PromptParts α) (c : PromptConfig)
    (input_ids attention_mask : List (List Nat))
    (hopt : M1.opt = M2.opt)
    (henc : M1.prefix_encoder = M2.prefix_encoder)
    (hmean : M1.mean_pooling = M2.mean_pooling)
    (hpool : c.pooling_method = "mean") :
    (promptGetOptOutput M1 c input_ids attention_mask).1 =
      (promptGetOptOutput M2 c input_ids attention_mask).1 := by
  have h1 : promptStep1Call M1 c input_ids attention_mask =
      promptStep1Call M2 c input_ids attention_mask := by
    simp only [promptStep1Call, henc]
  simp only [promptGetOptOutput, hpool, if_pos, h1, hopt, hmean]

/-- The toy parts with a different postfix encoder and a different
last-query encoder (everything else unchanged). -/
def toyPartsAlt : PromptParts Unit :=
  { toyParts with
    postfix_encoder := fun _ => List.replicate 4 ⟨List.replicate 9 (), List.replicate 9 ()⟩
    last_query_encoder := fun b => List.replicate b [(), ()] }

/-- Witness for the C10 theorem: with mean pooling and both a postfix and
a last-query segment configured, the two toy part sets that differ only
in those two encoders agree on the pooled output. -/
theorem prompt_forward_mean_ignores_postfix_witness :
    (promptGetOptOutput toyParts ⟨2, 3, 1, "mean"⟩ toyIds toyMask).1 =
      (promptGetOptOutput toyPartsAlt ⟨2, 3, 1, "mean"⟩ toyIds toyMask).1 :=
  prompt_forward_mean_ignores_postfix Unit toyParts toyPartsAlt ⟨2, 3, 1, "mean"⟩
    toyIds toyMask rfl rfl rfl rfl

/-- Claim C8 (confirmed): a positive post_seq_len with last_query_len 0
fails at construction time: the constructor's assertion that
last_query_len is at least 1 fires (an AssertionError in the source,
which the spec's taxonomy names ConfigurationError). -/
theorem prompt_init_post_requires_query (c : PromptConfig)
    (hpost : 0 < c.post_seq_len) (hlq : c.last_query_len = 0) :
    promptInit c =
      .error (.configurationError "last_query_len must be at least 1") := by
  simp [promptInit, hpost, hlq]

/-- Witness for the C8 theorem at post_seq_len 2 and last_query_len 0. -/
theorem prompt_init_post_requires_query_witness :
    promptInit ⟨0, 2, 0, "mean"⟩ =
      .error (.configurationError "last_query_len must be at least 1") :=
  prompt_init_post_requires_query ⟨0, 2, 0, "mean"⟩ (by decide) rfl

/-- Claim C4 (counterexample): constructing with pooling_method last and
last_query_len 0 does not raise anything: OPTPromptSeqRec.__init__ has no
check tying the pooling method to the last-query segment, so construction
succeeds with no encoder submodules. -/
theorem prompt_init_claim_counterexample :
    promptInit ⟨0, 0, 0, "last"⟩ = .ok ⟨false, false, false, false⟩ := by
  rfl

/-- Claim C4 (corrected amendment): with pooling_method last or mean_last
and last_query_len 0 (and post_seq_len 0, otherwise the constructor's own
assertion fires first) construction succeeds, and the failure is deferred
to the forward pass: the pooling step reads the never-assigned
second-pass output and dies with the unbound-local error, not with a
configuration error at construction time. -/
theorem prompt_init_deferred_failure (α : Type) [Inhabited α]
    (M : PromptParts α) (c : PromptConfig)
    (input_ids attention_mask : List (List Nat))
    (hlq : c.last_query_len = 0) (hpost : c.post_seq_len = 0)
    (hpool : c.pooling_method = "last" ∨ c.pooling_method = "mean_last") :
    (∃ mods, promptInit c = .ok mods) ∧
    (promptGetOptOutput M c input_ids attention_mask).1 =
      .error (.unboundLocal "last_token_embs") := by
  constructor
  · refine ⟨⟨decide (0 < c.pre_seq_len), decide (0 < c.post_seq_len),
      decide (0 < c.last_query_len), decide (c.pooling_method = "mean_last")⟩, ?_⟩
    simp [promptInit, hpost]
  · rcases hpool with h | h <;>
      simp [promptGetOptOutput, promptStep2Call, hlq, h]

/-- Witness for the amended C4 theorem: pooling last with all prompt
lengths 0 constructs fine and the forward fails with the unbound local. -/
theorem prompt_init_deferred_failure_witness :
    (∃ mods, promptInit ⟨0, 0, 0, "last"⟩ = .ok mods) ∧
    (promptGetOptOutput toyParts ⟨0, 0, 0, "last"⟩ toyIds toyMask).1 =
      .error (.unboundLocal "last_token_embs") :=
  prompt_init_deferred_failure Unit toyParts ⟨0, 0, 0, "last"⟩ toyIds toyMask
    rfl rfl (Or.inl rfl)

/-- Output of the pre-inference backbone call, over an untyped value: the
source is dynamically typed, and the argument swap it contains would be a
type error in a typed embedding. -/
structure PIOptOut (γ : Type) where
  last_hidden_state : γ
deriving DecidableEq

/-- One call into the pre-inference backbone: the keyword arguments
inputs_hidden_state=... and attention_mask=... of src line 363. -/
structure PICall (γ : Type) where
  inputs_hidden_state : γ
  attention_mask : γ
deriving DecidableEq

/-- Embeds PreInferOPTSeqRec._get_opt_output (src/models/seqrec_opt.py
lines 362-373).  The value parameters appear in the source's order:
(attention_mask, inputs_hidden_state).  Returns the pooled output
together with the backbone call made, so theorems can observe which value
reached which keyword argument. -/
def preInferGetOptOutput {γ : Type} (opt : PICall γ → PIOptOut γ)
    (mean_pooling last_pooling : γ → γ → γ) (pooling_method : String)
    (attention_mask inputs_hidden_state : γ) :
    Except RunError γ × PICall γ :=
  let call : PICall γ := ⟨inputs_hidden_state, attention_mask⟩
  let output := opt call
  let sentence_embs := output.last_hidden_state
  let item_embs : Except RunError γ :=
    if pooling_method = "mean" then
      .ok (mean_pooling sentence_embs attention_mask)
    else if pooling_method = "last" then
      .ok (last_pooling sentence_embs attention_mask)
    else .error (.unboundLocal "item_embs")
  (item_embs, call)

/-- Embeds PreInferOPTSeqRec._feature_extract (src lines 375-393).  In
the item_embs=None case the hidden states and the mask are reshaped and
_get_opt_output is then called positionally as
self._get_opt_output(inputs_hidden_state, attention_mask) (line 385),
binding the hidden states to the attention_mask parameter and the mask to
the inputs_hidden_state parameter; the result runs through the
projection.  view3 and view2 stand for the two reshapes, proj for the
projection layers plus the final view. -/
def preInferFeatureExtract {γ : Type} (opt : PICall γ → PIOptOut γ)
    (mean_pooling last_pooling : γ → γ → γ) (proj : γ → γ)
    (view3 view2 : γ → γ) (pooling_method : String)
    (inputs_hidden_state attention_mask : γ) (item_embs : Option γ) :
    Except RunError γ × Option (PICall γ) :=
  match item_embs with
  | some e => (.ok (proj e), none)
  | none =>
      let ihs := view3 inputs_hidden_state
      let am := view2 attention_mask
      let r := preInferGetOptOutput opt mean_pooling last_pooling pooling_method
        ihs am
      (r.1.map proj, some r.2)

/-- Claim C9 (code_bug evidence): when _feature_extract runs with hidden
states and a mask (item_embs None), the positional call on src line 385
crosses the arguments: the backbone call's inputs_hidden_state slot
receives the reshaped attention mask, its attention_mask slot receives
the reshaped hidden states, and the mean pooling runs with the reshaped
hidden states in its mask position — the claim's intended binding does
not hold for any inputs. -/
theorem pre_infer_swaps_arguments (γ : Type) (opt : PICall γ → PIOptOut γ)
    (mean_pooling last_pooling : γ → γ → γ) (proj : γ → γ)
    (view3 view2 : γ → γ) (inputs_hidden_state attention_mask : γ) :
    (preInferFeatureExtract opt mean_pooling last_pooling proj view3 view2
        "mean" inputs_hidden_state attention_mask none).2 =
      some ⟨view2 attention_mask, view3 inputs_hidden_state⟩ ∧
    (preInferFeatureExtract opt mean_pooling last_pooling proj view3 view2
        "mean" inputs_hidden_state attention_mask none).1 =
      .ok (proj (mean_pooling
        (opt ⟨view2 attention_mask, view3 inputs_hidden_state⟩).last_hidden_state
        (view3 inputs_hidden_state))) := by
  constructor <;> rfl
